import Mathlib

/-!
Shallow embedding of the `dataspine` validation core
(`src/dataspine/schemas/market_data.py`, `src/dataspine/schemas/trade_data.py`,
`src/dataspine/validation/contracts.py`, `src/dataspine/validation/invariants.py`).

Modelling conventions:
* Python `Decimal` values are represented by their `as_tuple()` form
  (sign, digit tuple, exponent); the numeric value is a rational.
  Non-finite decimals (NaN/Infinity) are outside the model.
* Python `datetime` values are represented by an optional UTC offset
  (in minutes; `none` = naive), an absolute instant (in minutes) and a
  calendar year.  "now" is passed explicitly to every check that samples
  the clock.
* The invariant checkers take `list[Any]` and use `getattr(record, name,
  None)`; records there are modelled as finite attribute maps over a
  small dynamic value type `PyVal`.  Comparisons between heterogeneous
  values (which would raise in Python) do not occur in the proved
  statements.
* Error-message strings keep the contract tag and the reason phrase of
  the source f-strings; the interpolated offending-value suffixes are
  elided (no proved statement depends on them).
* Exceptions escaping the validator (`AttributeError` from `None.tzinfo`,
  `TypeError` from `None <= 0`) are modelled with `Except PyExc`.
-/

namespace Dataspine

/-- A dynamic Python value as seen by the invariant checkers
(`invariants.py` takes `list[Any]`).  `none` plays the role of Python
`None`. -/
inductive PyVal where
  | none : PyVal
  | str : String → PyVal
  | int : Int → PyVal
deriving DecidableEq, Repr

/-- A record as seen by `getattr`: a finite map from attribute names to
values.  An absent attribute and an attribute explicitly set to `None`
are both observed as `PyVal.none` by `getattr(r, name, None)`. -/
def Record := List (String × PyVal)

instance : DecidableEq Record := by
  unfold Record
  infer_instance

/-- `getattr(record, name, None)` from `invariants.py`. -/
def pyGetattr (r : Record) (name : String) : PyVal :=
  match r.lookup name with
  | some v => v
  | Option.none => PyVal.none

/-- `>` between two attribute values, as used on timestamps in
`check_monotonic_timestamps`.  Only homogeneous comparisons occur in the
statements proved below (heterogeneous ones raise in Python). -/
def pyGt : PyVal → PyVal → Bool
  | PyVal.int a, PyVal.int b => a > b
  | PyVal.str a, PyVal.str b => b < a
  | _, _ => false

/-! ### `check_idempotency` (invariants.py lines 38-99)

Generic in the element type, like the source's `list[Any]` with `!=`. -/

/-- `check_idempotency(batch1, batch2)`: length check first, then an
element-wise scan collecting the differing indices; the result is
`False` iff a length mismatch or at least one difference was found. -/
def check_idempotency {α : Type} [DecidableEq α] (batch1 batch2 : List α) : Bool :=
  if batch1.length ≠ batch2.length then
    false
  else
    -- `differences = [i for i, (x, y) in enumerate(zip(...)) if x != y]`
    (batch1.zip batch2).all fun p => decide (p.1 = p.2)

/-! ### `check_monotonic_timestamps` (invariants.py lines 102-180) -/

/-- The timestamp attribute of a record, as read by the checker. -/
def tsOf (r : Record) : PyVal :=
  pyGetattr r "timestamp"

/-- Whether the adjacent pair `(current, next)` is recorded as a
violation: a missing timestamp on either side, or a decrease. -/
def monoPairViol (current next : Record) : Bool :=
  match tsOf current, tsOf next with
  | PyVal.none, _ => true
  | _, PyVal.none => true
  | a, b => pyGt a b

/-- The number of violations collected by the loop over adjacent pairs
(the loop never aborts early; it scans every pair). -/
def monoViolations : List Record → Nat
  | r1 :: r2 :: rest =>
      (if monoPairViol r1 r2 then 1 else 0) + monoViolations (r2 :: rest)
  | _ => 0

/-- `check_monotonic_timestamps(batch)`: trivially true for length ≤ 1,
otherwise true iff the pair scan collected no violation. -/
def check_monotonic_timestamps (batch : List Record) : Bool :=
  if batch.length ≤ 1 then true
  else monoViolations batch = 0

/-- Specification-side predicate: the record's timestamp attribute is
either absent/`None` or an integer instant (the shape the checker's
batches have in all proved statements). -/
def tsIntOrNone (r : Record) : Prop :=
  tsOf r = PyVal.none ∨ ∃ n : Int, tsOf r = PyVal.int n

/-- Specification-side predicate: both timestamps are present integer
instants and the first is ≤ the second (ties permitted). -/
def tsLe (r1 r2 : Record) : Prop :=
  ∃ a b : Int, tsOf r1 = PyVal.int a ∧ tsOf r2 = PyVal.int b ∧ a ≤ b

/-! ### `check_uniqueness` (invariants.py lines 243-335) -/

/-- The `(scope_value, key_value)` pair a record contributes to the
uniqueness universe, or `none` when the record is skipped because its
key field is absent.  `if scope_key:` is Python truthiness: a `None` or
empty scope-key name selects the single `"__global__"` scope. -/
def uniqProj (key : String) (scopeKey : Option String) (r : Record) :
    Option (PyVal × PyVal) :=
  match pyGetattr r key with
  | PyVal.none => Option.none
  | kv =>
      let sv :=
        match scopeKey with
        | some sk => if sk.isEmpty then PyVal.str "__global__" else pyGetattr r sk
        | Option.none => PyVal.str "__global__"
      some (sv, kv)

/-- The record loop of `check_uniqueness`: `seen` accumulates the
`(scope, key)` pairs encountered so far; a pair already seen marks a
duplicate.  The source keeps scanning after a duplicate and returns
`False` iff the duplicate list is non-empty, which yields the same
boolean as this conjunction. -/
def uniqLoop (key : String) (scopeKey : Option String) :
    List Record → List (PyVal × PyVal) → Bool
  | [], _ => true
  | r :: rest, seen =>
      match uniqProj key scopeKey r with
      | Option.none => uniqLoop key scopeKey rest seen
      | some p => (!seen.contains p) && uniqLoop key scopeKey rest (p :: seen)

/-- `check_uniqueness(records, key, scope_key)` (empty batch returns
early with `True`). -/
def check_uniqueness (records : List Record) (key : String)
    (scopeKey : Option String) : Bool :=
  if records.isEmpty then true
  else uniqLoop key scopeKey records []

/-! ### `check_referential_integrity` (invariants.py lines 338-418) -/

/-- `symbol in known_symbols` for an attribute value (the known-symbol
set contains strings, so a non-string value is never a member). -/
def symbolKnown (known : List String) : PyVal → Bool
  | PyVal.str s => known.contains s
  | _ => false

/-- Whether a trade contributes an unknown symbol: its symbol attribute
is present (records with a `None`/absent symbol are skipped) and not in
the known set. -/
def tradeUnknown (known : List String) (r : Record) : Bool :=
  match pyGetattr r "symbol" with
  | PyVal.none => false
  | v => !symbolKnown known v

/-- `check_referential_integrity(trades, known_symbols, strict)`:
empty batch returns early with `True`; otherwise unknown symbols are
collected and the function returns `False` only when the collection is
non-empty and `strict` is set. -/
def check_referential_integrity (trades : List Record)
    (known : List String) (strict : Bool) : Bool :=
  if trades.isEmpty then true
  else if trades.any (tradeUnknown known) && strict then false
  else true

/-! ### Python scalar values (schemas and contracts layers) -/

/-- A finite Python `Decimal` in its `as_tuple()` representation
`(sign, digits, exponent)`.  NaN/Infinity (whose exponent is not an
`int`) are outside the model. -/
structure PyDecimal where
  sign : Bool
  digits : List Nat
  exp : Int
deriving DecidableEq, Repr

/-- The coefficient encoded by the digit tuple. -/
def PyDecimal.coeff (d : PyDecimal) : Nat :=
  d.digits.foldl (fun a dig => 10 * a + dig) 0

/-- The exact numeric value of the decimal, as a rational:
`±coeff · 10^exp`. -/
def PyDecimal.val (d : PyDecimal) : ℚ :=
  let c : Int := if d.sign then -(d.coeff : Int) else (d.coeff : Int)
  if 0 ≤ d.exp then mkRat (c * (10 : Int) ^ d.exp.toNat) 1
  else mkRat c ((10 : Nat) ^ (-d.exp).toNat)

/-- `decimal_places` as computed by the validators: `abs(exponent)` when
`exponent < 0`, and no fractional digits otherwise. -/
def PyDecimal.fracDigits (d : PyDecimal) : Nat :=
  if d.exp < 0 then (-d.exp).toNat else 0

/-- A Python `datetime`: optional UTC offset in minutes (`none` for a
naive value), the absolute instant in minutes (meaningful for aware
values, which are the only ones the code ever compares), and the
calendar year. -/
structure PyDatetime where
  utcOffsetMin : Option Int
  instant : Int
  year : Int
deriving DecidableEq, Repr

/-- A Python exception escaping a validator. -/
inductive PyExc where
  | attributeError (msg : String) : PyExc
  | typeError (msg : String) : PyExc
deriving DecidableEq, Repr

instance {ε α : Type} [DecidableEq ε] [DecidableEq α] : DecidableEq (Except ε α)
  | Except.error x, Except.error y =>
      match decEq x y with
      | isTrue h => isTrue (h ▸ rfl)
      | isFalse h => isFalse fun he => h (Except.error.inj he)
  | Except.error _, Except.ok _ => isFalse fun he => Except.noConfusion he
  | Except.ok _, Except.error _ => isFalse fun he => Except.noConfusion he
  | Except.ok x, Except.ok y =>
      match decEq x y with
      | isTrue h => isTrue (h ▸ rfl)
      | isFalse h => isFalse fun he => h (Except.ok.inj he)

/-- `str.upper()` on the ASCII range (the symbols in every statement
below are ASCII; Unicode case mapping is not modelled). -/
def pyUpperChar (c : Char) : Char :=
  if c.isLower then c.toUpper else c

/-- `s.upper()`. -/
def pyUpper (s : String) : String :=
  String.mk (s.data.map pyUpperChar)

/-- Python `str.strip()` whitespace class (ASCII part). -/
def isPySpace (c : Char) : Bool :=
  c = ' ' ∨ c = '\t' ∨ c = '\n' ∨ c = '\r' ∨ c = '\x0b' ∨ c = '\x0c'

/-- `s.strip()`. -/
def pyStrip (s : String) : String :=
  String.mk (((s.data.dropWhile isPySpace).reverse.dropWhile isPySpace).reverse)

/-- One character of the class `[A-Z0-9.]`. -/
def symbolClassChar (c : Char) : Bool :=
  ('A' ≤ c && c ≤ 'Z') || ('0' ≤ c && c ≤ '9') || c = '.'

/-- `[A-Z0-9.]{1,10}` consuming the whole character list. -/
def symbolCore (l : List Char) : Bool :=
  decide (1 ≤ l.length) && decide (l.length ≤ 10) && l.all symbolClassChar

/-- `re.match(SYMBOL_PATTERN, s)` for `^[A-Z0-9.]{1,10}$`: in Python,
`$` also matches just before one trailing newline. -/
def symbolPatternMatch (s : String) : Bool :=
  symbolCore s.data || (s.data.getLast? == some '\n' && symbolCore s.data.dropLast)

/-! ### Violation messages.  Each constant keeps the contract tag and
reason phrase of the corresponding source f-string; interpolated
offending-value suffixes are elided. -/

def symbolEmptyMsg : String := "SYMBOL_FORMAT: symbol cannot be empty"

def symbolUppercaseMsg : String := "SYMBOL_FORMAT: symbol must be uppercase only"

def symbolLengthMsg : String := "SYMBOL_FORMAT: symbol must be 1-10 characters"

def symbolPatternMsg : String :=
  "SYMBOL_FORMAT: symbol must contain only uppercase letters, digits, and periods (no whitespace)"

def priceTypeMsg (fieldName : String) : String :=
  "PRICE_VALIDITY: " ++ fieldName ++ " must be Decimal type"

def pricePositiveMsg (fieldName : String) : String :=
  "PRICE_VALIDITY: " ++ fieldName ++ " must be positive"

def pricePlacesMsg (fieldName : String) : String :=
  "PRICE_VALIDITY: " ++ fieldName ++ " must have at most 4 decimal places"

def qtyPositiveMsg : String := "QUANTITY_VALIDITY: quantity must be positive"

def qtyPlacesMsg : String :=
  "QUANTITY_VALIDITY: quantity must have at most 4 decimal places"

def tsNaiveMsg : String := "TIMESTAMP_VALIDITY: timestamp must be timezone-aware"

def tsUtcMsg : String := "TIMESTAMP_VALIDITY: timestamp must be in UTC"

def tsFutureMsg : String := "TIMESTAMP_VALIDITY: timestamp cannot be >5min in future"

def tsYearMsg : String := "TIMESTAMP_VALIDITY: timestamp cannot be before year 2000"

def reqMissingMsg (fieldName : String) : String :=
  "REQUIRED_FIELDS: Missing required field " ++ fieldName

def reqEmptyMsg (fieldName : String) : String :=
  "REQUIRED_FIELDS: " ++ fieldName ++ " cannot be empty"

def volumeMsg : String := "VOLUME_VALIDITY: volume must be >= 0"

def tradeSideMsg : String := "TRADE_SPECIFIC: side must be exactly BUY or SELL"

def tradeQtyMsg : String := "TRADE_SPECIFIC: quantity must be positive"

def tradeTradeIdMsg : String := "TRADE_SPECIFIC: trade_id cannot be empty"

def tradeVenueMsg : String := "TRADE_SPECIFIC: venue cannot be empty"

/-! ### Construction-time field validators (market_data.py,
trade_data.py).  Each raises `ValueError` (modelled as `Except.error`)
at the first failing rule of its field. -/

/-- `MarketData.validate_symbol` / `TradeData.validate_symbol`
(identical bodies): empty, uppercase, length, pattern — in that order,
first failure raises. -/
def validate_symbol (v : String) : Except String String :=
  if v.isEmpty then Except.error symbolEmptyMsg
  else if v ≠ pyUpper v then Except.error symbolUppercaseMsg
  else if v.length < 1 ∨ 10 < v.length then Except.error symbolLengthMsg
  else if ¬ symbolPatternMatch v then Except.error symbolPatternMsg
  else Except.ok v

/-- `validate_price` on an input that is already a `Decimal` (the
`Decimal(str(v))` coercion branch for other input types is outside the
model; the claims quantify over exact decimals). -/
def validate_price (v : PyDecimal) : Except String PyDecimal :=
  if v.val ≤ 0 then Except.error (pricePositiveMsg "price")
  else if v.exp < 0 ∧ 4 < v.fracDigits then Except.error (pricePlacesMsg "price")
  else Except.ok v

/-- `TradeData.validate_quantity`: same rules as `validate_price`, with
`QUANTITY_VALIDITY`-tagged messages. -/
def validate_quantity (v : PyDecimal) : Except String PyDecimal :=
  if v.val ≤ 0 then Except.error qtyPositiveMsg
  else if v.exp < 0 ∧ 4 < v.fracDigits then Except.error qtyPlacesMsg
  else Except.ok v

/-- `validate_timestamp` (same body in both schemas); `now` is
`datetime.now(timezone.utc)` at validation time, in minutes. -/
def validate_timestamp (now : Int) (v : PyDatetime) : Except String PyDatetime :=
  match v.utcOffsetMin with
  | Option.none => Except.error tsNaiveMsg
  | some off =>
      if off ≠ 0 then Except.error tsUtcMsg
      else if now + 5 < v.instant then Except.error tsFutureMsg
      else if v.year < 2000 then Except.error tsYearMsg
      else Except.ok v

/-- `MarketData.validate_volume`. -/
def validate_volume (v : Int) : Except String Int :=
  if v < 0 then Except.error volumeMsg else Except.ok v

/-- `MarketData.validate_source` (`not v or not v.strip()`). -/
def validate_source (v : String) : Except String String :=
  if v.isEmpty ∨ (pyStrip v).isEmpty then Except.error (reqEmptyMsg "source")
  else Except.ok v

/-- `TradeData.validate_trade_id`. -/
def validate_trade_id (v : String) : Except String String :=
  if v.isEmpty ∨ (pyStrip v).isEmpty then Except.error (reqEmptyMsg "trade_id")
  else Except.ok v

/-- `TradeData.validate_client_id`. -/
def validate_client_id (v : String) : Except String String :=
  if v.isEmpty ∨ (pyStrip v).isEmpty then Except.error (reqEmptyMsg "client_id")
  else Except.ok v

/-- `TradeData.validate_venue`. -/
def validate_venue (v : String) : Except String String :=
  if v.isEmpty ∨ (pyStrip v).isEmpty then Except.error (reqEmptyMsg "venue")
  else Except.ok v

/-- `TradeData.validate_side` (`v not in VALID_SIDES`). -/
def validate_side (v : String) : Except String String :=
  if v ≠ "BUY" ∧ v ≠ "SELL" then Except.error tradeSideMsg
  else Except.ok v

/-! ### Record types.  Fields are `Option`-valued because
`model_construct` can assemble instances that bypass validation and
carry `None`/missing fields (the tests do exactly this). -/

/-- A `MarketData` instance as the contract validator can receive it. -/
structure MarketData where
  symbol : Option String
  price : Option PyDecimal
  timestamp : Option PyDatetime
  volume : Option Int
  source : Option String
deriving DecidableEq, Repr

/-- A `TradeData` instance as the contract validator can receive it. -/
structure TradeData where
  trade_id : Option String
  client_id : Option String
  symbol : Option String
  side : Option String
  quantity : Option PyDecimal
  price : Option PyDecimal
  timestamp : Option PyDatetime
  venue : Option String
deriving DecidableEq, Repr

/-- The single `ValueError` message of a field validator, if any
(pydantic collects one message per violated field). -/
def errsOf {α : Type} : Except String α → List String
  | Except.error m => [m]
  | Except.ok _ => []

/-- The per-field construction errors of `MarketData(...)`, in field
order. -/
def marketFieldErrs (now : Int) (symbol : String) (price : PyDecimal)
    (timestamp : PyDatetime) (volume : Int) (source : String) : List String :=
  errsOf (validate_symbol symbol) ++ errsOf (validate_price price) ++
    errsOf (validate_timestamp now timestamp) ++ errsOf (validate_volume volume) ++
    errsOf (validate_source source)

/-- Pydantic construction of `MarketData`: every field validator runs,
construction succeeds iff none raised, and the structured error carries
one message per violated field. -/
def constructMarketData (now : Int) (symbol : String) (price : PyDecimal)
    (timestamp : PyDatetime) (volume : Int) (source : String) :
    Except (List String) MarketData :=
  if (marketFieldErrs now symbol price timestamp volume source).isEmpty then
    Except.ok ⟨some symbol, some price, some timestamp, some volume, some source⟩
  else Except.error (marketFieldErrs now symbol price timestamp volume source)

/-- The per-field construction errors of `TradeData(...)`, in field
order. -/
def tradeFieldErrs (now : Int) (trade_id client_id symbol side : String)
    (quantity price : PyDecimal) (timestamp : PyDatetime) (venue : String) :
    List String :=
  errsOf (validate_trade_id trade_id) ++ errsOf (validate_client_id client_id) ++
    errsOf (validate_symbol symbol) ++ errsOf (validate_side side) ++
    errsOf (validate_quantity quantity) ++ errsOf (validate_price price) ++
    errsOf (validate_timestamp now timestamp) ++ errsOf (validate_venue venue)

/-- Pydantic construction of `TradeData`. -/
def constructTradeData (now : Int) (trade_id client_id symbol side : String)
    (quantity price : PyDecimal) (timestamp : PyDatetime) (venue : String) :
    Except (List String) TradeData :=
  if (tradeFieldErrs now trade_id client_id symbol side quantity price
      timestamp venue).isEmpty then
    Except.ok ⟨some trade_id, some client_id, some symbol, some side,
      some quantity, some price, some timestamp, some venue⟩
  else Except.error (tradeFieldErrs now trade_id client_id symbol side quantity
    price timestamp venue)

/-! ### `ContractValidator` (contracts.py) -/

/-- `_check_required_fields_market`: one message per `None` field, in
the order of `required_fields`. -/
def _check_required_fields_market (d : MarketData) : List String :=
  (if d.symbol.isNone then [reqMissingMsg "symbol"] else []) ++
    (if d.price.isNone then [reqMissingMsg "price"] else []) ++
    (if d.timestamp.isNone then [reqMissingMsg "timestamp"] else []) ++
    (if d.volume.isNone then [reqMissingMsg "volume"] else []) ++
    (if d.source.isNone then [reqMissingMsg "source"] else [])

/-- `_check_required_fields_trade`. -/
def _check_required_fields_trade (d : TradeData) : List String :=
  (if d.trade_id.isNone then [reqMissingMsg "trade_id"] else []) ++
    (if d.client_id.isNone then [reqMissingMsg "client_id"] else []) ++
    (if d.symbol.isNone then [reqMissingMsg "symbol"] else []) ++
    (if d.side.isNone then [reqMissingMsg "side"] else []) ++
    (if d.quantity.isNone then [reqMissingMsg "quantity"] else []) ++
    (if d.price.isNone then [reqMissingMsg "price"] else []) ++
    (if d.timestamp.isNone then [reqMissingMsg "timestamp"] else []) ++
    (if d.venue.isNone then [reqMissingMsg "venue"] else [])

/-- `_check_price_validity`: a non-`Decimal` value (here: a `None`
field) yields only the type message and returns early; a `Decimal`
is checked for positivity and decimal places independently. -/
def _check_price_validity (value : Option PyDecimal) (field_name : String) :
    List String :=
  match value with
  | Option.none => [priceTypeMsg field_name]
  | some v =>
      (if v.val ≤ 0 then [pricePositiveMsg field_name] else []) ++
        (if v.exp < 0 ∧ 4 < v.fracDigits then [pricePlacesMsg field_name] else [])

/-- `_check_timestamp_validity`: the source immediately evaluates
`ts.tzinfo`, so a `None` timestamp raises `AttributeError` instead of
returning a violation list; an aware non-UTC offset, the 5-minute
future bound and the year floor are collected independently. -/
def _check_timestamp_validity (now : Int) :
    Option PyDatetime → Except PyExc (List String)
  | Option.none =>
      Except.error (PyExc.attributeError "NoneType object has no attribute tzinfo")
  | some ts =>
      Except.ok
        (match ts.utcOffsetMin with
        | Option.none => [tsNaiveMsg]
        | some off =>
            (if off ≠ 0 then [tsUtcMsg] else []) ++
              (if now + 5 < ts.instant then [tsFutureMsg] else []) ++
              (if ts.year < 2000 then [tsYearMsg] else []))

/-- `_check_symbol_format`: `if not symbol` catches both a `None` field
and the empty string and returns early; otherwise length, uppercase and
pattern are checked independently. -/
def _check_symbol_format : Option String → List String
  | Option.none => [symbolEmptyMsg]
  | some s =>
      if s.isEmpty then [symbolEmptyMsg]
      else
        (if s.length < 1 ∨ 10 < s.length then [symbolLengthMsg] else []) ++
          (if s ≠ pyUpper s then [symbolUppercaseMsg] else []) ++
          (if ¬ symbolPatternMatch s then [symbolPatternMsg] else [])

/-- `_check_trade_specific_rules`: side membership, quantity
positivity, non-empty trade_id and venue.  `data.quantity <= 0` with a
`None` quantity raises `TypeError`; `not data.trade_id` short-circuits
before `.strip()`, so `None`/empty ids are reported, not raised. -/
def _check_trade_specific_rules (d : TradeData) : Except PyExc (List String) :=
  let sideErrs :=
    match d.side with
    | some s => if s ≠ "BUY" ∧ s ≠ "SELL" then [tradeSideMsg] else []
    | Option.none => [tradeSideMsg]
  match d.quantity with
  | Option.none =>
      Except.error (PyExc.typeError "unsupported comparison of NoneType and int")
  | some q =>
      let qtyErrs := if q.val ≤ 0 then [tradeQtyMsg] else []
      let tidErrs :=
        match d.trade_id with
        | Option.none => [tradeTradeIdMsg]
        | some t => if t.isEmpty ∨ (pyStrip t).isEmpty then [tradeTradeIdMsg] else []
      let venueErrs :=
        match d.venue with
        | Option.none => [tradeVenueMsg]
        | some v => if v.isEmpty ∨ (pyStrip v).isEmpty then [tradeVenueMsg] else []
      Except.ok (sideErrs ++ qtyErrs ++ tidErrs ++ venueErrs)

/-- `ContractValidator.validate_market_data`: the four contract checks
in source order; the timestamp check can raise. -/
def validate_market_data (now : Int) (d : MarketData) :
    Except PyExc (Bool × List String) := do
  let e1 := _check_required_fields_market d
  let e2 := _check_price_validity d.price "price"
  let e3 ← _check_timestamp_validity now d.timestamp
  let e4 := _check_symbol_format d.symbol
  let errors := e1 ++ e2 ++ e3 ++ e4
  return (errors.isEmpty, errors)

/-- `ContractValidator.validate_trade_data`: the five contract checks
in source order (price validity runs on both price and quantity); the
timestamp and trade-specific checks can raise. -/
def validate_trade_data (now : Int) (d : TradeData) :
    Except PyExc (Bool × List String) := do
  let e1 := _check_required_fields_trade d
  let e2 := _check_price_validity d.price "price"
  let e3 := _check_price_validity d.quantity "quantity"
  let e4 ← _check_timestamp_validity now d.timestamp
  let e5 := _check_symbol_format d.symbol
  let e6 ← _check_trade_specific_rules d
  let errors := e1 ++ e2 ++ e3 ++ e4 ++ e5 ++ e6
  return (errors.isEmpty, errors)

/-! ## Theorems -/

lemma zip_all_eq {α : Type} [DecidableEq α] :
    ∀ (b1 b2 : List α), b1.length = b2.length →
      ((((b1.zip b2).all fun p => decide (p.1 = p.2)) = true) ↔ b1 = b2)
  | [], [] => by simp
  | [], _ :: _ => by simp
  | _ :: _, [] => by simp
  | a :: as, b :: bs => by
      intro h
      have ih := zip_all_eq as bs (Nat.succ.inj h)
      simp only [List.zip_cons_cons, List.all_cons, Bool.and_eq_true,
        decide_eq_true_eq, List.cons.injEq]
      exact and_congr Iff.rfl ih

lemma check_idempotency_eq_iff {α : Type} [DecidableEq α] (b1 b2 : List α) :
    check_idempotency b1 b2 = true ↔ b1 = b2 := by
  unfold check_idempotency
  by_cases hl : b1.length = b2.length
  · simp only [hl, ne_eq, not_true_eq_false, if_false]
    exact zip_all_eq b1 b2 hl
  · simp only [ne_eq, hl, not_false_eq_true, if_true]
    constructor
    · intro h; cases h
    · intro h; exact absurd (congrArg List.length h) hl

/-- C7: `check_idempotency(batch1, batch2)` is true iff the two batches
have the same length and are element-wise equal at every index; it is
reflexive, and a one-element batch against an empty batch fails. -/
theorem C7_idempotency :
    (∀ (b1 b2 : List Record), check_idempotency b1 b2 = true ↔
        (b1.length = b2.length ∧
          ∀ (i : Nat) (h1 : i < b1.length) (h2 : i < b2.length),
            b1.get ⟨i, h1⟩ = b2.get ⟨i, h2⟩))
    ∧ (∀ b : List Record, check_idempotency b b = true)
    ∧ (∀ x : Record, check_idempotency [x] [] = false) := by
  refine ⟨?_, ?_, ?_⟩
  · intro b1 b2
    rw [check_idempotency_eq_iff]
    constructor
    · rintro rfl
      exact ⟨rfl, fun i h1 h2 => rfl⟩
    · rintro ⟨hl, hp⟩
      exact List.ext_get hl hp
  · intro b
    rw [check_idempotency_eq_iff]
  · intro x
    rfl

/-- C7 witness: the theorem applied at concrete batches. -/
theorem C7_idempotency_witness :
    check_idempotency ([[("symbol", PyVal.str "AAPL")]] : List Record) [] = false
    ∧ check_idempotency ([[("symbol", PyVal.str "AAPL")]] : List Record)
        [[("symbol", PyVal.str "AAPL")]] = true :=
  ⟨C7_idempotency.2.2 [("symbol", PyVal.str "AAPL")],
   C7_idempotency.2.1 [[("symbol", PyVal.str "AAPL")]]⟩

lemma monoViolations_eq_zero_iff : ∀ l : List Record,
    monoViolations l = 0 ↔ l.Chain' (fun a b => monoPairViol a b = false)
  | [] => by simp [monoViolations]
  | [_] => by simp [monoViolations]
  | r1 :: r2 :: rest => by
      have ih := monoViolations_eq_zero_iff (r2 :: rest)
      have hstep : monoViolations (r1 :: r2 :: rest) =
          (if monoPairViol r1 r2 = true then 1 else 0) +
            monoViolations (r2 :: rest) := rfl
      rw [List.chain'_cons, ← ih, hstep]
      by_cases h : monoPairViol r1 r2 = true
      · simp [h]
      · rw [Bool.not_eq_true] at h
        simp [h]

lemma monoPairViol_false_present {r1 r2 : Record}
    (h : monoPairViol r1 r2 = false) :
    tsOf r1 ≠ PyVal.none ∧ tsOf r2 ≠ PyVal.none := by
  unfold monoPairViol at h
  cases c1 : tsOf r1 <;> cases c2 : tsOf r2 <;> rw [c1, c2] at h <;> simp_all

lemma monoPairViol_false_iff {r1 r2 : Record}
    (h1 : tsIntOrNone r1) (h2 : tsIntOrNone r2) :
    monoPairViol r1 r2 = false ↔ tsLe r1 r2 := by
  unfold tsLe
  rcases h1 with h1 | ⟨a, ha⟩
  · constructor
    · intro h
      exact absurd h1 (monoPairViol_false_present h).1
    · rintro ⟨a, b, ha, _, _⟩
      rw [h1] at ha
      cases ha
  · rcases h2 with h2 | ⟨b, hb⟩
    · constructor
      · intro h
        exact absurd h2 (monoPairViol_false_present h).2
      · rintro ⟨a', b', _, hb', _⟩
        rw [h2] at hb'
        cases hb'
    · unfold monoPairViol pyGt
      rw [ha, hb]
      simp only [decide_eq_false_iff_not, not_lt]
      constructor
      · intro hle
        exact ⟨a, b, rfl, rfl, hle⟩
      · rintro ⟨a', b', ha', hb', hle⟩
        cases ha'
        cases hb'
        exact hle

/-- C5: `check_monotonic_timestamps` is true iff every adjacent pair of
(integer) timestamps is non-decreasing; empty and single-element batches
pass trivially; a missing timestamp in an adjacent pair forces a
violation (so the check cannot pass), and the pair scan does not abort
at the first violation (both the missing-timestamp pair and a later
decreasing pair are counted). -/
theorem C5_monotonic :
    (∀ batch : List Record, (∀ r ∈ batch, tsIntOrNone r) →
        (check_monotonic_timestamps batch = true ↔
          ∀ (i : Nat) (h : i + 1 < batch.length),
            tsLe (batch.get ⟨i, Nat.lt_of_succ_lt h⟩) (batch.get ⟨i + 1, h⟩)))
    ∧ check_monotonic_timestamps [] = true
    ∧ (∀ r : Record, check_monotonic_timestamps [r] = true)
    ∧ (∀ (batch : List Record) (i : Nat) (h : i + 1 < batch.length),
        check_monotonic_timestamps batch = true →
          tsOf (batch.get ⟨i, Nat.lt_of_succ_lt h⟩) ≠ PyVal.none ∧
          tsOf (batch.get ⟨i + 1, h⟩) ≠ PyVal.none)
    ∧ monoViolations
        [[("timestamp", PyVal.none)], [("timestamp", PyVal.int 10)],
         [("timestamp", PyVal.int 5)]] = 2
    ∧ check_monotonic_timestamps
        [[("timestamp", PyVal.int 0)], [("timestamp", PyVal.int 10)],
         [("timestamp", PyVal.int 5)]] = false := by
  refine ⟨?_, rfl, fun r => rfl, ?_, rfl, rfl⟩
  · intro batch hok
    unfold check_monotonic_timestamps
    by_cases hlen : batch.length ≤ 1
    · rw [if_pos hlen]
      constructor
      · intro _ i h
        exact absurd h (by omega)
      · intro _
        rfl
    · rw [if_neg hlen, decide_eq_true_eq, monoViolations_eq_zero_iff,
        List.chain'_iff_get]
      constructor
      · intro hv i h
        have := hv i (by omega)
        exact (monoPairViol_false_iff (hok _ (List.get_mem _ _ _))
          (hok _ (List.get_mem _ _ _))).mp this
      · intro hp i h
        exact (monoPairViol_false_iff (hok _ (List.get_mem _ _ _))
          (hok _ (List.get_mem _ _ _))).mpr (hp i (by omega))
  · intro batch i h hck
    have hlen : ¬ batch.length ≤ 1 := by omega
    unfold check_monotonic_timestamps at hck
    rw [if_neg hlen, decide_eq_true_eq, monoViolations_eq_zero_iff,
      List.chain'_iff_get] at hck
    exact monoPairViol_false_present (hck i (by omega))

/-- C5 witness: the main equivalence applied to a concrete
non-decreasing three-element batch. -/
theorem C5_monotonic_witness :
    check_monotonic_timestamps
      [[("timestamp", PyVal.int 0)], [("timestamp", PyVal.int 5)],
       [("timestamp", PyVal.int 5)]] = true := by
  refine (C5_monotonic.1 _ ?_).mpr ?_
  · intro r hr
    fin_cases hr
    · exact Or.inr ⟨0, rfl⟩
    · exact Or.inr ⟨5, rfl⟩
    · exact Or.inr ⟨5, rfl⟩
  · intro i h
    simp only [List.length_cons, List.length_nil] at h
    obtain _ | _ | n := i
    · exact ⟨0, 5, rfl, rfl, by norm_num⟩
    · exact ⟨5, 5, rfl, rfl, le_refl 5⟩
    · exact absurd h (by omega)

lemma uniqLoop_step (key : String) (sk : Option String) (r : Record)
    (rest : List Record) (seen : List (PyVal × PyVal)) :
    uniqLoop key sk (r :: rest) seen =
      match uniqProj key sk r with
      | Option.none => uniqLoop key sk rest seen
      | some p => (!seen.contains p) && uniqLoop key sk rest (p :: seen) := rfl

lemma uniqLoop_iff (key : String) (sk : Option String) :
    ∀ (l : List Record) (seen : List (PyVal × PyVal)),
      uniqLoop key sk l seen = true ↔
        ((l.filterMap (uniqProj key sk)).Nodup ∧
          ∀ p ∈ l.filterMap (uniqProj key sk), p ∉ seen)
  | [], seen => by simp [uniqLoop]
  | r :: rest, seen => by
      rw [uniqLoop_step]
      cases hp : uniqProj key sk r with
      | none =>
          rw [List.filterMap_cons_none hp]
          exact uniqLoop_iff key sk rest seen
      | some p =>
          show (!seen.contains p && uniqLoop key sk rest (p :: seen)) = true ↔ _
          rw [List.filterMap_cons_some hp, Bool.and_eq_true,
            Bool.not_eq_true', uniqLoop_iff key sk rest (p :: seen),
            List.nodup_cons]
          constructor
          · rintro ⟨hns, hnd, hall⟩
            simp only [List.elem_eq_mem, decide_eq_false_iff_not] at hns
            refine ⟨⟨fun hmem => (hall p hmem (List.mem_cons_self p seen)).elim, hnd⟩, ?_⟩
            intro q hq
            rcases List.mem_cons.mp hq with rfl | hq'
            · exact hns
            · intro hqs
              exact hall q hq' (List.mem_cons_of_mem p hqs)
          · rintro ⟨⟨hpn, hnd⟩, hall⟩
            refine ⟨?_, hnd, ?_⟩
            · simp only [List.elem_eq_mem, decide_eq_false_iff_not]
              exact hall p (List.mem_cons_self p _)
            · intro q hq hqs
              rcases List.mem_cons.mp hqs with rfl | hqs'
              · exact hpn hq
              · exact hall q (List.mem_cons_of_mem p hq) hqs'

/-- The boolean of `check_uniqueness` is true exactly when the
`(scope, key)` pairs contributed by the records with a present key
field contain no duplicate. -/
lemma check_uniqueness_iff (records : List Record) (key : String)
    (sk : Option String) :
    check_uniqueness records key sk = true ↔
      (records.filterMap (uniqProj key sk)).Nodup := by
  unfold check_uniqueness
  by_cases h : records.isEmpty
  · rw [List.isEmpty_iff] at h
    subst h
    simp
  · rw [if_neg h, uniqLoop_iff]
    simp

/-- C6: `check_uniqueness` is true iff no `(scope, key)` pair repeats
among the records whose key field is present; a record without the key
field is skipped (removing it does not change the verdict); and the two
`TRD-001` trades under clients `C1`/`C2` pass with `scope_key =
"client_id"` but fail globally. -/
theorem C6_uniqueness :
    (∀ (records : List Record) (key : String) (sk : Option String),
        check_uniqueness records key sk = true ↔
          (records.filterMap (uniqProj key sk)).Nodup)
    ∧ (∀ (r : Record) (records : List Record) (key : String) (sk : Option String),
        pyGetattr r key = PyVal.none →
          check_uniqueness (r :: records) key sk = check_uniqueness records key sk)
    ∧ check_uniqueness
        [[("trade_id", PyVal.str "TRD-001"), ("client_id", PyVal.str "C1")],
         [("trade_id", PyVal.str "TRD-001"), ("client_id", PyVal.str "C2")]]
        "trade_id" (some "client_id") = true
    ∧ check_uniqueness
        [[("trade_id", PyVal.str "TRD-001"), ("client_id", PyVal.str "C1")],
         [("trade_id", PyVal.str "TRD-001"), ("client_id", PyVal.str "C2")]]
        "trade_id" Option.none = false := by
  refine ⟨fun records key sk => check_uniqueness_iff records key sk, ?_, rfl, rfl⟩
  intro r records key sk h
  have hproj : uniqProj key sk r = Option.none := by
    unfold uniqProj
    rw [h]
  have hstep : ∀ seen, uniqLoop key sk (r :: records) seen =
      uniqLoop key sk records seen := by
    intro seen
    rw [uniqLoop_step, hproj]
  unfold check_uniqueness
  cases records with
  | nil =>
      rw [if_neg (by simp), hstep]
      simp [uniqLoop]
  | cons a as =>
      rw [if_neg (by simp), if_neg (by simp), hstep]

/-- C6 witness: the skipping clause applied to a concrete record lacking
the key field. -/
theorem C6_uniqueness_witness :
    check_uniqueness
      [[("venue", PyVal.str "NYSE")],
       [("trade_id", PyVal.str "TRD-001"), ("client_id", PyVal.str "C1")]]
      "trade_id" (some "client_id") =
    check_uniqueness
      [[("trade_id", PyVal.str "TRD-001"), ("client_id", PyVal.str "C1")]]
      "trade_id" (some "client_id") :=
  C6_uniqueness.2.1 [("venue", PyVal.str "NYSE")]
    [[("trade_id", PyVal.str "TRD-001"), ("client_id", PyVal.str "C1")]]
    "trade_id" (some "client_id") rfl

/-- C10: with a scope key, records that have the key field but lack the
scope field all land in the shared scope `None`, so two such records
with the same key value are duplicates and the check fails. -/
theorem C10_missing_scope_shared :
    ∀ (r1 r2 : Record) (key sk : String) (v : PyVal),
      sk ≠ "" →
      pyGetattr r1 key = v → pyGetattr r2 key = v → v ≠ PyVal.none →
      pyGetattr r1 sk = PyVal.none → pyGetattr r2 sk = PyVal.none →
      uniqProj key (some sk) r1 = some (PyVal.none, v) ∧
      uniqProj key (some sk) r2 = some (PyVal.none, v) ∧
      check_uniqueness [r1, r2] key (some sk) = false := by
  intro r1 r2 key sk v hsk hk1 hk2 hv hs1 hs2
  have hske : sk.isEmpty = false := by
    rw [Bool.eq_false_iff]
    intro he
    exact hsk ((String.isEmpty_iff sk).mp he)
  have hproj : ∀ r, pyGetattr r key = v → pyGetattr r sk = PyVal.none →
      uniqProj key (some sk) r = some (PyVal.none, v) := by
    intro r hk hs
    unfold uniqProj
    rw [hk]
    cases v with
    | none => exact absurd rfl hv
    | str s =>
        show some (if sk.isEmpty then PyVal.str "__global__" else pyGetattr r sk, _) = _
        rw [hske, if_neg (by simp), hs]
    | int n =>
        show some (if sk.isEmpty then PyVal.str "__global__" else pyGetattr r sk, _) = _
        rw [hske, if_neg (by simp), hs]
  refine ⟨hproj r1 hk1 hs1, hproj r2 hk2 hs2, ?_⟩
  have hnod : ¬ (([r1, r2].filterMap (uniqProj key (some sk))).Nodup) := by
    rw [List.filterMap_cons_some (hproj r1 hk1 hs1),
      List.filterMap_cons_some (hproj r2 hk2 hs2)]
    simp
  cases hb : check_uniqueness [r1, r2] key (some sk) with
  | false => rfl
  | true => exact absurd ((check_uniqueness_iff _ _ _).mp hb) hnod

/-- C10 witness: the theorem applied to two concrete records carrying
`trade_id = "TRD-001"` and no `client_id` attribute. -/
theorem C10_missing_scope_shared_witness :
    check_uniqueness
      [[("trade_id", PyVal.str "TRD-001")], [("trade_id", PyVal.str "TRD-001")]]
      "trade_id" (some "client_id") = false :=
  (C10_missing_scope_shared [("trade_id", PyVal.str "TRD-001")]
    [("trade_id", PyVal.str "TRD-001")] "trade_id" "client_id"
    (PyVal.str "TRD-001") (by decide) rfl rfl (by decide) rfl rfl).2.2

lemma tradeUnknown_iff (known : List String) (r : Record) :
    tradeUnknown known r = true ↔
      ∃ v, pyGetattr r "symbol" = v ∧ v ≠ PyVal.none ∧
        symbolKnown known v = false := by
  unfold tradeUnknown
  cases h : pyGetattr r "symbol" with
  | none =>
      simp only [Bool.false_eq_true, false_iff]
      rintro ⟨v, hv, hne, _⟩
      exact hne hv.symm
  | str s =>
      simp only [Bool.not_eq_true']
      constructor
      · intro hk
        exact ⟨PyVal.str s, rfl, by simp, hk⟩
      · rintro ⟨v, rfl, _, hk⟩
        exact hk
  | int n =>
      simp only [Bool.not_eq_true']
      constructor
      · intro hk
        exact ⟨PyVal.int n, rfl, by simp, hk⟩
      · rintro ⟨v, rfl, _, hk⟩
        exact hk

/-- C4: referential integrity is advisory when `strict=False` (always
true), and with `strict=True` it is false exactly when some trade
carries a present symbol outside the known set; the empty batch passes
in either mode. -/
theorem C4_referential_integrity :
    (∀ (trades : List Record) (known : List String),
        check_referential_integrity trades known false = true)
    ∧ (∀ (trades : List Record) (known : List String),
        check_referential_integrity trades known true = false ↔
          ∃ r ∈ trades, ∃ v, pyGetattr r "symbol" = v ∧ v ≠ PyVal.none ∧
            symbolKnown known v = false)
    ∧ (∀ (known : List String) (strict : Bool),
        check_referential_integrity [] known strict = true) := by
  refine ⟨?_, ?_, ?_⟩
  · intro trades known
    unfold check_referential_integrity
    by_cases h : trades.isEmpty <;> simp [h]
  · intro trades known
    have hmain : check_referential_integrity trades known true = false ↔
        trades.any (tradeUnknown known) = true := by
      unfold check_referential_integrity
      by_cases h : trades.isEmpty
      · rw [List.isEmpty_iff] at h
        subst h
        simp
      · by_cases ha : trades.any (tradeUnknown known)
        · simp [h, ha]
        · rw [Bool.not_eq_true] at ha
          simp [h, ha]
    rw [hmain, List.any_eq_true]
    constructor
    · rintro ⟨r, hr, hu⟩
      obtain ⟨v, hv⟩ := (tradeUnknown_iff known r).mp hu
      exact ⟨r, hr, v, hv⟩
    · rintro ⟨r, hr, v, hv⟩
      exact ⟨r, hr, (tradeUnknown_iff known r).mpr ⟨v, hv⟩⟩
  · intro known strict
    rfl

/-- C4 witness: the theorem applied to a trade with symbol `"ZZZZ"`
against the known set `{"AAPL"}`. -/
theorem C4_referential_integrity_witness :
    check_referential_integrity [[("symbol", PyVal.str "ZZZZ")]] ["AAPL"] false = true
    ∧ check_referential_integrity [[("symbol", PyVal.str "ZZZZ")]] ["AAPL"] true = false :=
  ⟨C4_referential_integrity.1 [[("symbol", PyVal.str "ZZZZ")]] ["AAPL"],
   (C4_referential_integrity.2.1 [[("symbol", PyVal.str "ZZZZ")]] ["AAPL"]).mpr
     ⟨[("symbol", PyVal.str "ZZZZ")], List.mem_singleton.mpr rfl,
      PyVal.str "ZZZZ", rfl, by simp, rfl⟩⟩

/-- C1 (code bug): on a `MarketData` record assembled with a null
timestamp (all other fields valid), `validate_market_data` does not
return a `(bool, errors)` pair at all: evaluating `ts.tzinfo` inside
`_check_timestamp_validity` raises `AttributeError`, contradicting the
never-raises contract and the suppression of timestamp sub-checks the
claim describes. -/
theorem C1_null_timestamp_raises :
    validate_market_data 0
      (MarketData.mk (some "AAPL") (some ⟨false, [1, 7, 5, 4, 3], -2⟩)
        Option.none (some 2500000) (some "iex_cloud")) =
      Except.error (PyExc.attributeError "NoneType object has no attribute tzinfo") :=
  rfl

/-- C3 counterexample: the symbol `"aa!"` violates two format rules
(it differs from its own uppercasing and fails the character-class
pattern), yet construction-time validation reports only the uppercase
rule — the pattern violation goes unreported. -/
theorem C3_counterexample :
    "aa!" ≠ pyUpper "aa!" ∧ symbolPatternMatch "aa!" = false ∧
    validate_symbol "aa!" = Except.error symbolUppercaseMsg ∧
    symbolUppercaseMsg ≠ symbolPatternMsg :=
  ⟨by decide, by decide, rfl, by decide⟩

lemma check_symbol_format_some (s : String) :
    _check_symbol_format (some s) =
      if s.isEmpty then [symbolEmptyMsg]
      else
        (if s.length < 1 ∨ 10 < s.length then [symbolLengthMsg] else []) ++
          (if s ≠ pyUpper s then [symbolUppercaseMsg] else []) ++
          (if ¬ symbolPatternMatch s then [symbolPatternMsg] else []) := rfl

/-- C3 amended: at construction the symbol sub-checks run in sequence
and the structured error reports only the first failing rule (in the
order empty, uppercase, length, pattern); construction succeeds exactly
when the contract validator's symbol-format check reports no violation,
and the single reported rule is always among the rules the contract
validator reports. -/
theorem C3_symbol_first_failure (s : String) :
    (validate_symbol s = Except.ok s ↔ _check_symbol_format (some s) = [])
    ∧ (∀ m, validate_symbol s = Except.error m →
        m ∈ _check_symbol_format (some s)) := by
  unfold validate_symbol
  by_cases he : s.isEmpty
  · constructor
    · rw [if_pos he, check_symbol_format_some, if_pos he]
      constructor
      · intro h
        simp at h
      · intro h
        simp at h
    · intro m hm
      rw [if_pos he] at hm
      injection hm with h
      subst h
      rw [check_symbol_format_some, if_pos he]
      exact List.mem_singleton.mpr rfl
  · by_cases hu : s ≠ pyUpper s
    · constructor
      · rw [if_neg he, if_pos hu, check_symbol_format_some, if_neg he, if_pos hu]
        constructor
        · intro h
          simp at h
        · intro h
          rcases List.append_eq_nil.mp h with ⟨h2, _⟩
          rcases List.append_eq_nil.mp h2 with ⟨_, h3⟩
          simp at h3
      · intro m hm
        rw [if_neg he, if_pos hu] at hm
        injection hm with h
        subst h
        rw [check_symbol_format_some, if_neg he, if_pos hu]
        exact List.mem_append_left _
          (List.mem_append_right _ (List.mem_singleton.mpr rfl))
    · by_cases hl : s.length < 1 ∨ 10 < s.length
      · constructor
        · rw [if_neg he, if_neg hu, if_pos hl, check_symbol_format_some,
            if_neg he, if_pos hl]
          constructor
          · intro h
            simp at h
          · intro h
            rcases List.append_eq_nil.mp h with ⟨h2, _⟩
            rcases List.append_eq_nil.mp h2 with ⟨h1, _⟩
            simp at h1
        · intro m hm
          rw [if_neg he, if_neg hu, if_pos hl] at hm
          injection hm with h
          subst h
          rw [check_symbol_format_some, if_neg he, if_pos hl]
          exact List.mem_append_left _
            (List.mem_append_left _ (List.mem_singleton.mpr rfl))
      · by_cases hp : ¬ symbolPatternMatch s
        · constructor
          · rw [if_neg he, if_neg hu, if_neg hl, if_pos hp,
              check_symbol_format_some, if_neg he, if_neg hl, if_neg hu,
              if_pos hp]
            constructor
            · intro h
              simp at h
            · intro h
              rcases List.append_eq_nil.mp h with ⟨_, h3⟩
              simp at h3
          · intro m hm
            rw [if_neg he, if_neg hu, if_neg hl, if_pos hp] at hm
            injection hm with h
            subst h
            rw [check_symbol_format_some, if_neg he, if_pos hp]
            exact List.mem_append_right _ (List.mem_singleton.mpr rfl)
        · constructor
          · rw [if_neg he, if_neg hu, if_neg hl, if_neg hp,
              check_symbol_format_some, if_neg he, if_neg hl, if_neg hu,
              if_neg hp]
            simp
          · intro m hm
            rw [if_neg he, if_neg hu, if_neg hl, if_neg hp] at hm
            simp at hm

/-- C3 amended witness: the first-failure clause applied at the
counterexample symbol. -/
theorem C3_symbol_first_failure_witness :
    symbolUppercaseMsg ∈ _check_symbol_format (some "aa!") :=
  (C3_symbol_first_failure "aa!").2 symbolUppercaseMsg rfl

/-- C8: a positive decimal with at most 4 fractional digits passes the
construction-time price and quantity validators and the contract price
check; a non-positive decimal or one with 5 or more fractional digits
is rejected at construction, and every message the contract check
reports carries the `PRICE_VALIDITY` tag (at least one is reported).
All checks read the exact `as_tuple()` data — no binary floating point
exists anywhere in the model. -/
theorem C8_price_validity (d : PyDecimal) :
    (0 < d.val ∧ d.fracDigits ≤ 4 →
      validate_price d = Except.ok d ∧ validate_quantity d = Except.ok d ∧
        _check_price_validity (some d) "price" = [])
    ∧ (d.val ≤ 0 ∨ 5 ≤ d.fracDigits →
      (∃ m, validate_price d = Except.error m) ∧
        (∃ m, validate_quantity d = Except.error m) ∧
        _check_price_validity (some d) "price" ≠ [] ∧
        ∀ m ∈ _check_price_validity (some d) "price",
          ∃ rest, m = "PRICE_VALIDITY: " ++ rest) := by
  constructor
  · rintro ⟨hpos, hfd⟩
    have hv : ¬ d.val ≤ 0 := not_le.mpr hpos
    have hp : ¬ (d.exp < 0 ∧ 4 < d.fracDigits) := by
      rintro ⟨_, h4⟩
      omega
    simp [validate_price, validate_quantity, _check_price_validity, hv, hp]
  · intro h
    have key : d.val ≤ 0 ∨ (d.exp < 0 ∧ 4 < d.fracDigits) := by
      rcases h with h | h
      · exact Or.inl h
      · refine Or.inr ⟨?_, by omega⟩
        by_contra hx
        unfold PyDecimal.fracDigits at h
        rw [if_neg hx] at h
        omega
    by_cases hv : d.val ≤ 0
    · refine ⟨⟨pricePositiveMsg "price", by simp [validate_price, hv]⟩,
        ⟨qtyPositiveMsg, by simp [validate_quantity, hv]⟩, ?_, ?_⟩
      · simp [_check_price_validity, hv]
      · intro m hm
        simp only [_check_price_validity, if_pos hv] at hm
        by_cases hpl : d.exp < 0 ∧ 4 < d.fracDigits
        · rw [if_pos hpl] at hm
          rcases List.mem_cons.mp hm with rfl | hm'
          · exact ⟨"price must be positive", by decide⟩
          · rcases List.mem_singleton.mp hm' with rfl
            exact ⟨"price must have at most 4 decimal places", by decide⟩
        · rw [if_neg hpl] at hm
          rcases List.mem_singleton.mp (by simpa using hm) with rfl
          exact ⟨"price must be positive", by decide⟩
    · have hpl : d.exp < 0 ∧ 4 < d.fracDigits := key.resolve_left hv
      refine ⟨⟨pricePlacesMsg "price", by simp [validate_price, hv, hpl]⟩,
        ⟨qtyPlacesMsg, by simp [validate_quantity, hv, hpl]⟩, ?_, ?_⟩
      · simp [_check_price_validity, hv, hpl]
      · intro m hm
        simp only [_check_price_validity, if_neg hv, if_pos hpl] at hm
        rcases List.mem_singleton.mp (by simpa using hm) with rfl
        exact ⟨"price must have at most 4 decimal places", by decide⟩

lemma except_bind_ok {ε α β : Type} (a : α) (f : α → Except ε β) :
    (Except.ok a >>= f : Except ε β) = f a := rfl

lemma check_price_validity_some (v : PyDecimal) (f : String) :
    _check_price_validity (some v) f =
      (if v.val ≤ 0 then [pricePositiveMsg f] else []) ++
        (if v.exp < 0 ∧ 4 < v.fracDigits then [pricePlacesMsg f] else []) := rfl

lemma trade_specific_some (d : TradeData) (q : PyDecimal)
    (hq : d.quantity = some q) :
    _check_trade_specific_rules d = Except.ok
      ((match d.side with
        | some s => if s ≠ "BUY" ∧ s ≠ "SELL" then [tradeSideMsg] else []
        | Option.none => [tradeSideMsg]) ++
        (if q.val ≤ 0 then [tradeQtyMsg] else []) ++
        (match d.trade_id with
          | Option.none => [tradeTradeIdMsg]
          | some t => if t.isEmpty ∨ (pyStrip t).isEmpty then [tradeTradeIdMsg]
              else []) ++
        (match d.venue with
          | Option.none => [tradeVenueMsg]
          | some v => if v.isEmpty ∨ (pyStrip v).isEmpty then [tradeVenueMsg]
              else [])) := by
  unfold _check_trade_specific_rules
  rw [hq]

/-- C9: on any trade record carrying a non-positive `Decimal` quantity
(and a present timestamp, so that validation returns), the violations
list reports the defect twice: once `PRICE_VALIDITY`-tagged from the
price-validity check applied to quantity, once `TRADE_SPECIFIC`-tagged
from the trade-specific rules — two distinct entries. -/
theorem C9_quantity_double_report (now : Int) (d : TradeData) (q : PyDecimal)
    (ts : PyDatetime) (hq : d.quantity = some q) (hql : q.val ≤ 0)
    (hts : d.timestamp = some ts) :
    ∃ errs : List String, validate_trade_data now d = Except.ok (false, errs) ∧
      pricePositiveMsg "quantity" ∈ errs ∧ tradeQtyMsg ∈ errs ∧
      pricePositiveMsg "quantity" ≠ tradeQtyMsg := by
  obtain ⟨TL, hTL⟩ : ∃ l, _check_timestamp_validity now d.timestamp =
      Except.ok l := ⟨_, by rw [hts]; exact rfl⟩
  have hsp := trade_specific_some d q hq
  simp only [validate_trade_data, hTL, hsp, except_bind_ok]
  have h3 : pricePositiveMsg "quantity" ∈
      _check_price_validity d.quantity "quantity" := by
    rw [hq, check_price_validity_some, if_pos hql]
    exact List.mem_append_left _ (List.mem_singleton.mpr rfl)
  have hmem1 : pricePositiveMsg "quantity" ∈
      _check_required_fields_trade d ++ _check_price_validity d.price "price" ++
        _check_price_validity d.quantity "quantity" ++ TL ++
        _check_symbol_format d.symbol ++
        ((match d.side with
          | some s => if s ≠ "BUY" ∧ s ≠ "SELL" then [tradeSideMsg] else []
          | Option.none => [tradeSideMsg]) ++
          (if q.val ≤ 0 then [tradeQtyMsg] else []) ++
          (match d.trade_id with
            | Option.none => [tradeTradeIdMsg]
            | some t => if t.isEmpty ∨ (pyStrip t).isEmpty then [tradeTradeIdMsg]
                else []) ++
          (match d.venue with
            | Option.none => [tradeVenueMsg]
            | some v => if v.isEmpty ∨ (pyStrip v).isEmpty then [tradeVenueMsg]
                else [])) :=
    List.mem_append_left _ (List.mem_append_left _ (List.mem_append_left _
      (List.mem_append_right _ h3)))
  have hqmem : tradeQtyMsg ∈
      ((match d.side with
        | some s => if s ≠ "BUY" ∧ s ≠ "SELL" then [tradeSideMsg] else []
        | Option.none => [tradeSideMsg]) ++
        (if q.val ≤ 0 then [tradeQtyMsg] else []) ++
        (match d.trade_id with
          | Option.none => [tradeTradeIdMsg]
          | some t => if t.isEmpty ∨ (pyStrip t).isEmpty then [tradeTradeIdMsg]
              else []) ++
        (match d.venue with
          | Option.none => [tradeVenueMsg]
          | some v => if v.isEmpty ∨ (pyStrip v).isEmpty then [tradeVenueMsg]
              else [])) := by
    rw [if_pos hql]
    exact List.mem_append_left _ (List.mem_append_left _
      (List.mem_append_right _ (List.mem_singleton.mpr rfl)))
  have hmem2 : tradeQtyMsg ∈
      _check_required_fields_trade d ++ _check_price_validity d.price "price" ++
        _check_price_validity d.quantity "quantity" ++ TL ++
        _check_symbol_format d.symbol ++
        ((match d.side with
          | some s => if s ≠ "BUY" ∧ s ≠ "SELL" then [tradeSideMsg] else []
          | Option.none => [tradeSideMsg]) ++
          (if q.val ≤ 0 then [tradeQtyMsg] else []) ++
          (match d.trade_id with
            | Option.none => [tradeTradeIdMsg]
            | some t => if t.isEmpty ∨ (pyStrip t).isEmpty then [tradeTradeIdMsg]
                else []) ++
          (match d.venue with
            | Option.none => [tradeVenueMsg]
            | some v => if v.isEmpty ∨ (pyStrip v).isEmpty then [tradeVenueMsg]
                else [])) :=
    List.mem_append_right _ hqmem
  refine ⟨_, ?_, hmem1, hmem2, by decide⟩
  have hne := List.ne_nil_of_mem hmem1
  have hie : (_check_required_fields_trade d ++
      _check_price_validity d.price "price" ++
      _check_price_validity d.quantity "quantity" ++ TL ++
      _check_symbol_format d.symbol ++
      ((match d.side with
        | some s => if s ≠ "BUY" ∧ s ≠ "SELL" then [tradeSideMsg] else []
        | Option.none => [tradeSideMsg]) ++
        (if q.val ≤ 0 then [tradeQtyMsg] else []) ++
        (match d.trade_id with
          | Option.none => [tradeTradeIdMsg]
          | some t => if t.isEmpty ∨ (pyStrip t).isEmpty then [tradeTradeIdMsg]
              else []) ++
        (match d.venue with
          | Option.none => [tradeVenueMsg]
          | some v => if v.isEmpty ∨ (pyStrip v).isEmpty then [tradeVenueMsg]
              else []))).isEmpty = false := by
    cases hc : (_check_required_fields_trade d ++
        _check_price_validity d.price "price" ++
        _check_price_validity d.quantity "quantity" ++ TL ++
        _check_symbol_format d.symbol ++
        ((match d.side with
          | some s => if s ≠ "BUY" ∧ s ≠ "SELL" then [tradeSideMsg] else []
          | Option.none => [tradeSideMsg]) ++
          (if q.val ≤ 0 then [tradeQtyMsg] else []) ++
          (match d.trade_id with
            | Option.none => [tradeTradeIdMsg]
            | some t => if t.isEmpty ∨ (pyStrip t).isEmpty then [tradeTradeIdMsg]
                else []) ++
          (match d.venue with
            | Option.none => [tradeVenueMsg]
            | some v => if v.isEmpty ∨ (pyStrip v).isEmpty then [tradeVenueMsg]
                else []))).isEmpty with
    | false => rfl
    | true => exact absurd (List.isEmpty_iff.mp hc) hne
  rw [hie]
  rfl

/-- C9 witness: the theorem applied to a concrete trade with quantity
`Decimal("0")`. -/
theorem C9_quantity_double_report_witness :
    ∃ errs : List String,
      validate_trade_data 0
        (TradeData.mk (some "TRD-001") (some "CLIENT-001") (some "AAPL")
          (some "BUY") (some ⟨false, [0], 0⟩) (some ⟨false, [1, 7, 5, 4, 3], -2⟩)
          (some ⟨some 0, 0, 2025⟩) (some "NYSE")) = Except.ok (false, errs) ∧
      pricePositiveMsg "quantity" ∈ errs ∧ tradeQtyMsg ∈ errs ∧
      pricePositiveMsg "quantity" ≠ tradeQtyMsg :=
  C9_quantity_double_report 0
    (TradeData.mk (some "TRD-001") (some "CLIENT-001") (some "AAPL")
      (some "BUY") (some ⟨false, [0], 0⟩) (some ⟨false, [1, 7, 5, 4, 3], -2⟩)
      (some ⟨some 0, 0, 2025⟩) (some "NYSE"))
    ⟨false, [0], 0⟩ ⟨some 0, 0, 2025⟩ rfl (by decide) rfl

/-- C8 witness: acceptance at `Decimal("175.43")`, rejection at
`Decimal("0.00005")` (5 fractional digits) and at `Decimal("-10.50")`
(non-positive). -/
theorem C8_price_validity_witness :
    (validate_price ⟨false, [1, 7, 5, 4, 3], -2⟩ =
      Except.ok ⟨false, [1, 7, 5, 4, 3], -2⟩)
    ∧ _check_price_validity (some ⟨false, [5], -5⟩) "price" ≠ []
    ∧ (∃ m, validate_price ⟨true, [1, 0, 5, 0], -2⟩ = Except.error m) :=
  ⟨((C8_price_validity ⟨false, [1, 7, 5, 4, 3], -2⟩).1 ⟨by decide, by decide⟩).1,
   ((C8_price_validity ⟨false, [5], -5⟩).2 (Or.inr (by decide))).2.2.1,
   ((C8_price_validity ⟨true, [1, 0, 5, 0], -2⟩).2 (Or.inl (by decide))).1⟩

lemma symbol_contract_ok {s : String} (h : errsOf (validate_symbol s) = []) :
    _check_symbol_format (some s) = [] := by
  unfold validate_symbol at h
  by_cases he : s.isEmpty
  · rw [if_pos he] at h
    simp [errsOf] at h
  · rw [if_neg he] at h
    by_cases hu : s ≠ pyUpper s
    · rw [if_pos hu] at h
      simp [errsOf] at h
    · rw [if_neg hu] at h
      by_cases hl : s.length < 1 ∨ 10 < s.length
      · rw [if_pos hl] at h
        simp [errsOf] at h
      · rw [if_neg hl] at h
        by_cases hp : ¬ symbolPatternMatch s
        · rw [if_pos hp] at h
          simp [errsOf] at h
        · rw [check_symbol_format_some, if_neg he, if_neg hl, if_neg hu,
            if_neg hp]
          rfl

lemma validate_price_conds {v : PyDecimal}
    (h : errsOf (validate_price v) = []) :
    ¬ v.val ≤ 0 ∧ ¬ (v.exp < 0 ∧ 4 < v.fracDigits) := by
  unfold validate_price at h
  by_cases hv : v.val ≤ 0
  · rw [if_pos hv] at h
    simp [errsOf] at h
  · by_cases hp : v.exp < 0 ∧ 4 < v.fracDigits
    · rw [if_neg hv, if_pos hp] at h
      simp [errsOf] at h
    · exact ⟨hv, hp⟩

lemma validate_quantity_conds {v : PyDecimal}
    (h : errsOf (validate_quantity v) = []) :
    ¬ v.val ≤ 0 ∧ ¬ (v.exp < 0 ∧ 4 < v.fracDigits) := by
  unfold validate_quantity at h
  by_cases hv : v.val ≤ 0
  · rw [if_pos hv] at h
    simp [errsOf] at h
  · by_cases hp : v.exp < 0 ∧ 4 < v.fracDigits
    · rw [if_neg hv, if_pos hp] at h
      simp [errsOf] at h
    · exact ⟨hv, hp⟩

lemma check_price_validity_nil {v : PyDecimal} (f : String)
    (h1 : ¬ v.val ≤ 0) (h2 : ¬ (v.exp < 0 ∧ 4 < v.fracDigits)) :
    _check_price_validity (some v) f = [] := by
  rw [check_price_validity_some, if_neg h1, if_neg h2]
  rfl

lemma validate_timestamp_conds {n0 : Int} {ts : PyDatetime}
    (h : errsOf (validate_timestamp n0 ts) = []) :
    ∃ off, ts.utcOffsetMin = some off ∧ off = 0 ∧
      ¬ n0 + 5 < ts.instant ∧ ¬ ts.year < 2000 := by
  unfold validate_timestamp at h
  split at h
  · simp [errsOf] at h
  · rename_i off heq
    split_ifs at h with h1 h2 h3
    · simp [errsOf] at h
    · simp [errsOf] at h
    · simp [errsOf] at h
    · exact ⟨off, heq, not_not.mp h1, h2, h3⟩

lemma check_timestamp_validity_some (n1 : Int) (ts : PyDatetime) :
    _check_timestamp_validity n1 (some ts) = Except.ok
      (match ts.utcOffsetMin with
      | Option.none => [tsNaiveMsg]
      | some off =>
          (if off ≠ 0 then [tsUtcMsg] else []) ++
            (if n1 + 5 < ts.instant then [tsFutureMsg] else []) ++
            (if ts.year < 2000 then [tsYearMsg] else [])) := rfl

lemma check_timestamp_validity_nil (n1 : Int) {ts : PyDatetime} {off : Int}
    (ho : ts.utcOffsetMin = some off) (h0 : off = 0)
    (hf : ¬ n1 + 5 < ts.instant) (hy : ¬ ts.year < 2000) :
    _check_timestamp_validity n1 (some ts) = Except.ok [] := by
  have hX : (match ts.utcOffsetMin with
      | Option.none => [tsNaiveMsg]
      | some o =>
          (if o ≠ 0 then [tsUtcMsg] else []) ++
            (if n1 + 5 < ts.instant then [tsFutureMsg] else []) ++
            (if ts.year < 2000 then [tsYearMsg] else [])) = ([] : List String) := by
    split
    · rename_i heq
      rw [ho] at heq
      cases heq
    · rename_i o heq
      rw [ho] at heq
      injection heq with hoo
      subst hoo
      subst h0
      rw [if_neg (by simp), if_neg hf, if_neg hy]
      rfl
  rw [check_timestamp_validity_some, hX]

lemma validate_side_conds {v : String} (h : errsOf (validate_side v) = []) :
    ¬ (v ≠ "BUY" ∧ v ≠ "SELL") := by
  unfold validate_side at h
  by_cases hc : v ≠ "BUY" ∧ v ≠ "SELL"
  · rw [if_pos hc] at h
    simp [errsOf] at h
  · exact hc

lemma validate_trade_id_conds {v : String}
    (h : errsOf (validate_trade_id v) = []) :
    ¬ (v.isEmpty ∨ (pyStrip v).isEmpty) := by
  unfold validate_trade_id at h
  by_cases hc : v.isEmpty ∨ (pyStrip v).isEmpty
  · rw [if_pos hc] at h
    simp [errsOf] at h
  · exact hc

lemma validate_venue_conds {v : String}
    (h : errsOf (validate_venue v) = []) :
    ¬ (v.isEmpty ∨ (pyStrip v).isEmpty) := by
  unfold validate_venue at h
  by_cases hc : v.isEmpty ∨ (pyStrip v).isEmpty
  · rw [if_pos hc] at h
    simp [errsOf] at h
  · exact hc

lemma validate_market_data_eq (now : Int) (d : MarketData) {lts : List String}
    (hts : _check_timestamp_validity now d.timestamp = Except.ok lts) :
    validate_market_data now d = Except.ok
      ((_check_required_fields_market d ++ _check_price_validity d.price "price"
        ++ lts ++ _check_symbol_format d.symbol).isEmpty,
       _check_required_fields_market d ++ _check_price_validity d.price "price"
        ++ lts ++ _check_symbol_format d.symbol) := by
  unfold validate_market_data
  rw [hts]
  rfl

lemma validate_trade_data_eq (now : Int) (d : TradeData) {lts lsp : List String}
    (hts : _check_timestamp_validity now d.timestamp = Except.ok lts)
    (hsp : _check_trade_specific_rules d = Except.ok lsp) :
    validate_trade_data now d = Except.ok
      ((_check_required_fields_trade d ++ _check_price_validity d.price "price"
        ++ _check_price_validity d.quantity "quantity" ++ lts
        ++ _check_symbol_format d.symbol ++ lsp).isEmpty,
       _check_required_fields_trade d ++ _check_price_validity d.price "price"
        ++ _check_price_validity d.quantity "quantity" ++ lts
        ++ _check_symbol_format d.symbol ++ lsp) := by
  unfold validate_trade_data
  rw [hts, hsp]
  rfl

/-- C2: a record accepted by construction-time validation passes the
contract validator with `(true, [])`, for both record types, at any
validation time not earlier than the construction time. -/
theorem C2_roundtrip :
    (∀ (n0 n1 : Int), n0 ≤ n1 →
      ∀ (sym : String) (p : PyDecimal) (ts : PyDatetime) (vol : Int)
        (src : String) (d : MarketData),
        constructMarketData n0 sym p ts vol src = Except.ok d →
        validate_market_data n1 d = Except.ok (true, []))
    ∧ (∀ (n0 n1 : Int), n0 ≤ n1 →
      ∀ (tid cid sym sd : String) (q p : PyDecimal) (ts : PyDatetime)
        (ven : String) (d : TradeData),
        constructTradeData n0 tid cid sym sd q p ts ven = Except.ok d →
        validate_trade_data n1 d = Except.ok (true, [])) := by
  constructor
  · intro n0 n1 hle sym p ts vol src d hc
    unfold constructMarketData at hc
    split_ifs at hc with hes
    · injection hc with hd
      subst hd
      rw [List.isEmpty_iff] at hes
      unfold marketFieldErrs at hes
      rcases List.append_eq_nil.mp hes with ⟨h4, hsrc⟩
      rcases List.append_eq_nil.mp h4 with ⟨h3, hvol⟩
      rcases List.append_eq_nil.mp h3 with ⟨h2, hts2⟩
      rcases List.append_eq_nil.mp h2 with ⟨hsym, hpr⟩
      obtain ⟨hpv, hpp⟩ := validate_price_conds hpr
      obtain ⟨off, ho, h0, hfut, hyr⟩ := validate_timestamp_conds hts2
      have hcs := symbol_contract_ok hsym
      have hcp := check_price_validity_nil "price" hpv hpp
      have hct := check_timestamp_validity_nil n1 ho h0 (by omega) hyr
      rw [validate_market_data_eq n1 _ hct]
      simp [_check_required_fields_market, hcp, hcs]
  · intro n0 n1 hle tid cid sym sd q p ts ven d hc
    unfold constructTradeData at hc
    split_ifs at hc with hes
    · injection hc with hd
      subst hd
      rw [List.isEmpty_iff] at hes
      unfold tradeFieldErrs at hes
      rcases List.append_eq_nil.mp hes with ⟨h7, hven⟩
      rcases List.append_eq_nil.mp h7 with ⟨h6, hts2⟩
      rcases List.append_eq_nil.mp h6 with ⟨h5, hpr⟩
      rcases List.append_eq_nil.mp h5 with ⟨h4, hq⟩
      rcases List.append_eq_nil.mp h4 with ⟨h3, hsd⟩
      rcases List.append_eq_nil.mp h3 with ⟨h2, hsym⟩
      rcases List.append_eq_nil.mp h2 with ⟨htid, hcid⟩
      obtain ⟨hpv, hpp⟩ := validate_price_conds hpr
      obtain ⟨hqv, hqp⟩ := validate_quantity_conds hq
      obtain ⟨off, ho, h0, hfut, hyr⟩ := validate_timestamp_conds hts2
      have hside := validate_side_conds hsd
      have htidc := validate_trade_id_conds htid
      have hvenc := validate_venue_conds hven
      have hcs := symbol_contract_ok hsym
      have hcp := check_price_validity_nil "price" hpv hpp
      have hcq := check_price_validity_nil "quantity" hqv hqp
      have hct := check_timestamp_validity_nil n1 ho h0 (by omega) hyr
      have hsp : _check_trade_specific_rules
          (TradeData.mk (some tid) (some cid) (some sym) (some sd) (some q)
            (some p) (some ts) (some ven)) = Except.ok [] := by
        rw [trade_specific_some _ q rfl]
        simp only [if_neg hside, if_neg hqv, if_neg htidc, if_neg hvenc]
        rfl
      rw [validate_trade_data_eq n1 _ hct hsp]
      simp [_check_required_fields_trade, hcp, hcq, hcs]

/-- C2 witness: the round trip at a concrete valid market record and a
concrete valid trade record. -/
theorem C2_roundtrip_witness :
    validate_market_data 100
      (MarketData.mk (some "AAPL") (some ⟨false, [1, 7, 5, 4, 3], -2⟩)
        (some ⟨some 0, 100, 2025⟩) (some 2500000) (some "iex_cloud")) =
      Except.ok (true, [])
    ∧ validate_trade_data 100
      (TradeData.mk (some "TRD-2025-0001") (some "CLIENT-001") (some "AAPL")
        (some "BUY") (some ⟨false, [1, 0, 0], 0⟩)
        (some ⟨false, [1, 7, 5, 4, 3], -2⟩) (some ⟨some 0, 100, 2025⟩)
        (some "NASDAQ")) = Except.ok (true, []) :=
  ⟨C2_roundtrip.1 100 100 (by decide) "AAPL" ⟨false, [1, 7, 5, 4, 3], -2⟩
      ⟨some 0, 100, 2025⟩ 2500000 "iex_cloud" _ (by decide),
   C2_roundtrip.2 100 100 (by decide) "TRD-2025-0001" "CLIENT-001" "AAPL"
      "BUY" ⟨false, [1, 0, 0], 0⟩ ⟨false, [1, 7, 5, 4, 3], -2⟩
      ⟨some 0, 100, 2025⟩ "NASDAQ" _ (by decide)⟩

end Dataspine
